import Mathlib

/-!
Shallow embedding of the polymer-analyzer core slice: the
property/behavior/listener extraction handlers, the namespace scanner,
the TypeScript preparser boundary, mixin resolution, the inline-document
coordinate mapper and the generated-metadata validator, together with
theorems settling the specification claims about them.
-/

namespace PolymerAnalyzer

/-- A line/column position, zero-based, as used throughout the analyzer. -/
structure Position where
  line : Nat
  column : Nat
deriving DecidableEq, Repr

/-- A source range: file plus start and end positions (source field names
`start` and `end`; `end` is a Lean keyword so it is rendered `endPos`). -/
structure SourceRange where
  file : String
  start : Position
  endPos : Position
deriving DecidableEq, Repr

/-- Severity of a warning, from src warning module (`Severity`). -/
inductive Severity where
  | INFO
  | WARNING
  | ERROR
deriving DecidableEq, Repr

/-- A non-fatal diagnostic, from the src warning module (`Warning`). -/
structure Warning where
  code : String
  message : String
  severity : Severity
  sourceRange : SourceRange
deriving DecidableEq, Repr

/-- Model of the TypeScript non-null assertion `!` applied to an optional
source range: the value when present, a default range otherwise. -/
def bangRange (o : Option SourceRange) : SourceRange :=
  o.getD { file := "", start := { line := 0, column := 0 }, endPos := { line := 0, column := 0 } }

/-- A JavaScript runtime value as far as the static extraction observes it:
literal strings, numbers, booleans, null and undefined. -/
inductive JsVal where
  | str (s : String)
  | num (n : Int)
  | bool (b : Bool)
  | nul
  | undefined
deriving DecidableEq, Repr

/-- JavaScript truthiness of a `JsVal`. -/
def JsVal.truthy : JsVal → Bool
  | .str s => s != ""
  | .num n => n != 0
  | .bool b => b
  | .nul => false
  | .undefined => false

/-- Whether `typeof v === 'string'` holds. -/
def JsVal.isString : JsVal → Bool
  | .str _ => true
  | _ => false

/-- The string payload of a `JsVal` known to be a string. -/
def JsVal.asString : JsVal → String
  | .str s => s
  | _ => ""

/-- JavaScript `a && b` on values (short-circuit is value-equivalent here
because the embedded operands are pure). -/
def jsAnd (a b : JsVal) : JsVal :=
  if a.truthy then b else a

/-- JavaScript `a || b` on values. -/
def jsOr (a b : JsVal) : JsVal :=
  if a.truthy then a else b

/-- The estree node shapes the embedded slice inspects.  `OtherNode` stands
for every further node kind, carrying only its `type` string. -/
inductive Node where
  | Literal (value : JsVal)
  | Identifier (name : String)
  | ThisExpression
  | MemberExpression (object : Node) (property : Node) (computed : Bool)
  | ObjectExpression (properties : List (Node × Node))
  | ArrayExpression (elements : List Node)
  | VariableDeclarator (declId : Node)
  | VariableDeclaration (declarations : List Node)
  | OtherNode (typeName : String)

/-- The estree `type` discriminant string of a node. -/
def Node.type : Node → String
  | .Literal _ => "Literal"
  | .Identifier _ => "Identifier"
  | .ThisExpression => "ThisExpression"
  | .MemberExpression _ _ _ => "MemberExpression"
  | .ObjectExpression _ => "ObjectExpression"
  | .ArrayExpression _ => "ArrayExpression"
  | .VariableDeclarator _ => "VariableDeclarator"
  | .VariableDeclaration _ => "VariableDeclaration"
  | .OtherNode t => t

/-- The `value` field read off a node (`undefined` unless it is a Literal). -/
def Node.literalValue : Node → JsVal
  | .Literal v => v
  | _ => .undefined

/-- The `name` field read off a node (`undefined` unless an Identifier). -/
def Node.identName : Node → JsVal
  | .Identifier n => .str n
  | _ => .undefined

/-- Modelled from the spec: the subscript or property part of a member
access, "a string/identifier subscript becomes a dotted path segment; a
non-literal, non-identifier subscript cannot be resolved".  The source
helper (`ast-value` module) is not included under src/. -/
def memberSegment : Node → Option String
  | .Identifier n => some n
  | .Literal (.str s) => some s
  | _ => none

/-- Modelled from the spec: `astValue.getIdentifierName`, resolving a node
to a dotted identifier name where statically possible.  The source helper
(`ast-value` module) is not included under src/. -/
def getIdentifierName : Node → Option String
  | .Identifier n => some n
  | .MemberExpression obj prop _ =>
    match getIdentifierName obj, memberSegment prop with
    | some o, some p => some (o ++ "." ++ p)
    | _, _ => none
  | _ => none

/-- JavaScript falsiness of an optional string (`undefined` or `''`). -/
def strFalsy : Option String → Bool
  | none => true
  | some s => s == ""

/-- JavaScript `a || b` on optional strings. -/
def jsStrOr (a b : Option String) : Option String :=
  if strFalsy a then b else a

/-- Whether `pat` occurs as a contiguous run inside `l` (used to model
JavaScript `indexOf(...) !== -1`). -/
def charListContains (pat : List Char) : List Char → Bool
  | [] => List.isPrefixOf pat []
  | c :: t => List.isPrefixOf pat (c :: t) || charListContains pat t

/-- Whether `pat` occurs as a substring of `s`. -/
def strContains (s pat : String) : Bool :=
  charListContains pat.data s.data

/-- The external document contract the embedded scanners consume: a range
lookup (`sourceRangeForNode`), plus the external `esutil.getAttachedComment`
and `jsdoc` helpers (not included under src/), modelled as document-supplied
functions. -/
structure JavaScriptDocument where
  sourceRangeForNode : Node → Option SourceRange
  attachedComment : Node → Option String
  jsdocNamespaceNameTag : String → Option String

/-- A scanned behavior reference (src `ScannedBehaviorAssignment`). -/
structure ScannedBehaviorAssignment where
  name : String
  sourceRange : SourceRange
deriving DecidableEq, Repr

/-- Result type of `getBehaviorAssignmentOrWarning` (src part_000). -/
inductive BehaviorAssignmentOrWarning where
  | warning (w : Warning)
  | behaviorAssignment (a : ScannedBehaviorAssignment)
deriving DecidableEq, Repr

/-- Embeds `getBehaviorAssignmentOrWarning` from src part_000: resolve the
element to a dotted identifier name, or produce a
`could-not-determine-behavior-name` warning when the name is falsy. -/
def getBehaviorAssignmentOrWarning (argNode : Node) (document : JavaScriptDocument) :
    BehaviorAssignmentOrWarning :=
  let behaviorName := getIdentifierName argNode
  if strFalsy behaviorName then
    .warning
      { code := "could-not-determine-behavior-name",
        message := "Could not determine behavior name from expression of type " ++ argNode.type,
        severity := .WARNING,
        sourceRange := bangRange (document.sourceRangeForNode argNode) }
  else
    .behaviorAssignment
      { name := behaviorName.getD "",
        sourceRange := bangRange (document.sourceRangeForNode argNode) }

/-- A listener entry as extracted by the `listeners` handler. -/
structure Listener where
  event : String
  handler : String
deriving DecidableEq, Repr

/-- The slice of the mutable `ScannedPolymerElement` declaration that the
embedded handlers annotate. -/
structure ScannedPolymerElement where
  tagName : Option String
  listeners : List Listener
  behaviorAssignments : List ScannedBehaviorAssignment
  warnings : List Warning
deriving DecidableEq, Repr

/-- The `evtName` expression of the `listeners` handler (src part_000):
`p.key.type === 'Literal' && p.key.value || p.key.type === 'Identifier' && p.key.name`. -/
def evtNameOf (key : Node) : JsVal :=
  jsOr (jsAnd (JsVal.bool (key.type == "Literal")) key.literalValue)
    (jsAnd (JsVal.bool (key.type == "Identifier")) key.identName)

/-- The `handler` expression of the `listeners` handler (src part_000):
`p.value.type !== 'Literal' || p.value.value`. -/
def handlerOf (value : Node) : JsVal :=
  jsOr (JsVal.bool (!(value.type == "Literal"))) value.literalValue

/-- The body of the `listeners` handler loop for one object property:
push `{event, handler}` when both computed values are strings, else skip. -/
def listenerStep (decl : ScannedPolymerElement) (p : Node × Node) : ScannedPolymerElement :=
  let evtName := evtNameOf p.1
  let handler := handlerOf p.2
  if evtName.isString && handler.isString then
    { decl with listeners := decl.listeners ++ [{ event := evtName.asString, handler := handler.asString }] }
  else
    decl

/-- Embeds `declarationPropertyHandlers(...).listeners` from src part_000:
an object expression has each property run through `listenerStep`; any
other node shape pushes an `invalid-listeners-declaration` warning. -/
def listenersHandler (declaration : ScannedPolymerElement) (document : JavaScriptDocument)
    (node : Node) : ScannedPolymerElement :=
  match node with
  | .ObjectExpression properties => properties.foldl listenerStep declaration
  | other =>
    { declaration with
      warnings := declaration.warnings ++
        [{ code := "invalid-listeners-declaration",
           message := "`listeners` property should be an object expression",
           severity := .ERROR,
           sourceRange := bangRange (document.sourceRangeForNode other) }] }

/-- The body of the `behaviors` handler loop for one array element
(src part_000): push either the warning or the assignment. -/
def behaviorStep (document : JavaScriptDocument) (decl : ScannedPolymerElement)
    (element : Node) : ScannedPolymerElement :=
  match getBehaviorAssignmentOrWarning element document with
  | .warning w => { decl with warnings := decl.warnings ++ [w] }
  | .behaviorAssignment a =>
    { decl with behaviorAssignments := decl.behaviorAssignments ++ [a] }

/-- Embeds `declarationPropertyHandlers(...).behaviors` from src part_000:
non-array nodes are ignored; each element of an array expression is run
through `behaviorStep`. -/
def behaviorsHandler (declaration : ScannedPolymerElement) (document : JavaScriptDocument)
    (node : Node) : ScannedPolymerElement :=
  match node with
  | .ArrayExpression elements => elements.foldl (behaviorStep document) declaration
  | _ => declaration

/-- A scanned namespace feature (src `ScannedNamespace`).  The parsed jsdoc
annotation object is external to src/, so the raw comment it was parsed from
is carried instead. -/
structure ScannedNamespace where
  name : String
  astNode : Node
  jsdocComment : String
  sourceRange : SourceRange

/-- Embeds `NamespaceVisitor._initNamespace` from src namespace-scanner.ts:
skip unless an attached comment contains `@namespace`; name is the explicit
jsdoc name tag or else `getName`; a falsy name skips; a missing source range
throws (`Except.error`); otherwise the namespace is produced. -/
def NamespaceVisitor.initNamespace (document : JavaScriptDocument) (node : Node)
    (getName : Option String) : Except String (Option ScannedNamespace) :=
  match document.attachedComment node with
  | none => .ok none
  | some comment =>
    if !strContains comment "@namespace" then .ok none
    else
      let name := jsStrOr (document.jsdocNamespaceNameTag comment) getName
      if strFalsy name then .ok none
      else
        match document.sourceRangeForNode node with
        | none => .error ("Unable to determine sourceRange for @namespace: " ++ comment)
        | some sourceRange =>
          .ok (some { name := name.getD "", astNode := node, jsdocComment := comment, sourceRange })

/-- Embeds `NamespaceVisitor.enterVariableDeclaration` from src
namespace-scanner.ts: a statement with other than exactly one declarator is
skipped as ambiguous; otherwise `_initNamespace` runs with the declared
identifier name as fallback.  The namespaces added are returned as a list. -/
def NamespaceVisitor.enterVariableDeclaration (document : JavaScriptDocument)
    (node : Node) : Except String (List ScannedNamespace) :=
  match node with
  | .VariableDeclaration declarations =>
    if declarations.length != 1 then .ok []
    else
      match NamespaceVisitor.initNamespace document node
          (match declarations.head? with
           | some (.VariableDeclarator declId) => getIdentifierName declId
           | _ => none) with
      | .ok none => .ok []
      | .ok (some ns) => .ok [ns]
      | .error e => .error e
  | _ => .ok []

/-- A scanned Polymer property, as far as the mixin claims observe it. -/
structure ScannedPolymerProperty where
  name : String
  default? : Option JsVal
deriving DecidableEq, Repr

/-- An observer entry: the original expression node plus its statically
evaluated value (or the cannot-convert sentinel). -/
structure Observer where
  javascriptNode : Node
  expression : JsVal

/-- The scanned behavior/mixin feature (src `ScannedPolymerElementMixin`):
declared properties, observers, listeners, behavior references, warnings. -/
structure ScannedPolymerElementMixin where
  name : Option String
  properties : List ScannedPolymerProperty
  observers : List Observer
  listeners : List Listener
  behaviorAssignments : List ScannedBehaviorAssignment
  warnings : List Warning
  abstract : Bool

/-- The resolved, immutable counterpart (src `PolymerElementMixin`). -/
structure PolymerElementMixin where
  name : Option String
  properties : List ScannedPolymerProperty
  observers : List Observer
  listeners : List Listener
  behaviorAssignments : List ScannedBehaviorAssignment
  warnings : List Warning
  abstract : Bool

/-- Embeds `ScannedPolymerElementMixin.resolve` from src
polymer-element-mixin.ts: `Object.assign(new PolymerElementMixin(), this)`,
a field-for-field copy into the resolved shape. -/
def ScannedPolymerElementMixin.resolve (this : ScannedPolymerElementMixin)
    (_document : JavaScriptDocument) : PolymerElementMixin :=
  { name := this.name,
    properties := this.properties,
    observers := this.observers,
    listeners := this.listeners,
    behaviorAssignments := this.behaviorAssignments,
    warnings := this.warnings,
    abstract := this.abstract }

/-- Modelled from the spec: the inline-document location offset
(`{line, column}` of where the inline document begins inside its
container); the source type lives in src/model, not included. -/
structure LocationOffset where
  line : Nat
  column : Nat
deriving DecidableEq, Repr

/-- Modelled from the spec: position correction for inline documents — the
offset's line count is added, and the offset's column count is added only
for positions on the inline document's first line (line 0). -/
def correctPosition (position : Position) (locationOffset : LocationOffset) : Position :=
  { line := position.line + locationOffset.line,
    column :=
      if position.line == 0 then position.column + locationOffset.column
      else position.column }

/-- Modelled from the spec: `correctSourceRange` from src/model (not
included): `undefined` range propagates, absence of an offset returns the
range unchanged, otherwise both endpoints are corrected. -/
def correctSourceRange (sourceRange : Option SourceRange)
    (locationOffset : Option LocationOffset) : Option SourceRange :=
  match sourceRange, locationOffset with
  | none, _ => none
  | some r, none => some r
  | some r, some o =>
    some { file := r.file, start := correctPosition r.start o,
           endPos := correctPosition r.endPos o }

/-- TypeScript diagnostic categories (`ts.DiagnosticCategory`). -/
inductive DiagnosticCategory where
  | Warning
  | Error
  | Suggestion
  | Message
deriving DecidableEq, Repr

/-- A TypeScript diagnostic as the preparser observes it. -/
structure Diagnostic where
  category : DiagnosticCategory
  start : Nat
  length : Nat
  messageText : String
deriving DecidableEq, Repr

/-- A line/character pair as returned by
`ts.SourceFile.getLineAndCharacterOfPosition`. -/
structure LineAndCharacter where
  line : Nat
  character : Nat
deriving DecidableEq, Repr

/-- The external `ts.SourceFile` boundary: the parse diagnostics and the
position-to-line/character translation the preparser consumes. -/
structure SourceFile where
  parseDiagnostics : List Diagnostic
  lineAndCharacterOfPosition : Nat → LineAndCharacter

/-- Inline-document info handed to a parser (`InlineDocInfo`). -/
structure InlineDocInfo where
  locationOffset : Option LocationOffset

/-- A thrown, range-carrying exception (`WarningCarryingException`). -/
structure WarningCarryingException where
  warning : Warning
deriving DecidableEq, Repr

/-- The parsed document returned on success (`ParsedTypeScriptDocument`). -/
structure ParsedTypeScriptDocument where
  url : String
  contents : String
  ast : SourceFile
  locationOffset : Option LocationOffset
  isInline : Bool

/-- The external `ts.flattenDiagnosticMessageText` boundary: the embedded
diagnostics carry their message already flattened to a string. -/
def flattenDiagnosticMessageText (messageText : String) (_sep : String) : String :=
  messageText

/-- Embeds `TypeScriptPreparser.parse` from src typescript-preparser.ts.
The external `ts.createSourceFile` is a parameter; the first diagnostic of
error category, if any, becomes a thrown `WarningCarryingException` with
code `parse-error` and severity `ERROR`; otherwise the parsed document is
returned. -/
def TypeScriptPreparser.parse (createSourceFile : String → String → SourceFile)
    (contents : String) (url : String) (inlineInfo? : Option InlineDocInfo) :
    Except WarningCarryingException ParsedTypeScriptDocument :=
  let isInline := inlineInfo?.isSome
  let inlineInfo := inlineInfo?.getD { locationOffset := none }
  let sourceFile := createSourceFile url contents
  let diagnostics := sourceFile.parseDiagnostics
  match diagnostics.find? (fun d => d.category == DiagnosticCategory.Error) with
  | some parseError =>
    let start := sourceFile.lineAndCharacterOfPosition parseError.start
    let stop := sourceFile.lineAndCharacterOfPosition (parseError.start + parseError.length)
    .error
      { warning :=
          { code := "parse-error",
            severity := .ERROR,
            message := flattenDiagnosticMessageText parseError.messageText "\n",
            sourceRange := bangRange (correctSourceRange
              (some { file := url,
                      start := { line := start.line, column := start.character },
                      endPos := { line := stop.line, column := stop.character } })
              inlineInfo.locationOffset) } }
  | none =>
    .ok { url := url, contents := contents, ast := sourceFile,
          locationOffset := inlineInfo.locationOffset, isInline := isInline }

/-- A decimal digit's value, else `none`. -/
def digitVal? (c : Char) : Option Nat :=
  if c.isDigit then some (c.toNat - 48) else none

/-- Accumulate a decimal number over characters; `none` on a non-digit. -/
def natOfCharsAux : List Char → Nat → Option Nat
  | [], acc => some acc
  | c :: t, acc =>
    match digitVal? c with
    | some d => natOfCharsAux t (acc * 10 + d)
    | none => none

/-- Parse a non-empty all-digit character list as a natural number. -/
def natOfChars? : List Char → Option Nat
  | [] => none
  | l => natOfCharsAux l 0

/-- Split a character list on a separator character. -/
def splitOnChar (sep : Char) : List Char → List (List Char)
  | [] => [[]]
  | c :: t =>
    let rest := splitOnChar sep t
    if c = sep then [] :: rest
    else
      match rest with
      | h :: t2 => (c :: h) :: t2
      | [] => [[c]]

/-- Parse a `major.minor.patch` semantic version; `none` when malformed. -/
def parseSchemaVersion (s : String) : Option (Nat × Nat × Nat) :=
  match (splitOnChar '.' s.data).map natOfChars? with
  | [some a, some b, some c] => some (a, b, c)
  | _ => none

/-- The structural violations and message carried by a thrown
`ValidationError`. -/
structure ValidationError where
  message : String
  errors : List String
deriving DecidableEq, Repr

/-- The generated-metadata object handed to `validateElements`: the
`schema_version` field (absent when missing), the elements list (kept
opaque) and any unknown extra fields, which validation ignores. -/
structure AnalyzedPackage where
  schema_version : Option String
  elements : Option (List String)
  extraFields : List (String × String)
deriving DecidableEq, Repr

/-- The validator's known schema version major number. -/
def knownSchemaVersionMajor : Nat := 1

/-- The validator's known schema version minor number. -/
def knownSchemaVersionMinor : Nat := 0

/-- Modelled from the spec: `validateElements` from generate-elements (not
included under src/; its test is).  Structural validation requires the
`schema_version` property; a version whose major and minor numbers are at
most the validator's known version is accepted even with unknown extra
fields present; a higher major or minor, or a malformed version string, is
rejected with an `Invalid schema_version in AnalyzedPackage` message (the
exact text the src test asserts). -/
def validateElements (analyzedPackage : AnalyzedPackage) : Except ValidationError Unit :=
  match analyzedPackage.schema_version with
  | none =>
    .error
      { message := "AnalyzedPackage requires property \"schema_version\"",
        errors := ["requires property \"schema_version\""] }
  | some sv =>
    match parseSchemaVersion sv with
    | none =>
      .error
        { message := "Invalid schema_version in AnalyzedPackage: " ++ sv,
          errors := ["Invalid schema_version in AnalyzedPackage: " ++ sv] }
    | some (major, minor, _) =>
      if major ≤ knownSchemaVersionMajor && minor ≤ knownSchemaVersionMinor then
        .ok ()
      else
        .error
          { message := "Invalid schema_version in AnalyzedPackage: " ++ sv,
            errors := ["Invalid schema_version in AnalyzedPackage: " ++ sv] }

/-- Spec-words predicate (for comparison with the code): the property key
is statically a string — a string literal or an identifier. -/
def keyStaticallyString : Node → Bool
  | .Identifier _ => true
  | .Literal (.str _) => true
  | _ => false

/-- Spec-words predicate (for comparison with the code): the property value
is statically a string — a string literal. -/
def valueStaticallyString : Node → Bool
  | .Literal (.str _) => true
  | _ => false

/-- The listener entry one object property contributes, phrased through the
computed `evtName`/`handler` values of the source loop. -/
def entry? (p : Node × Node) : Option Listener :=
  match evtNameOf p.1, handlerOf p.2 with
  | .str e, .str h => some { event := e, handler := h }
  | _, _ => none

/-- The amended spec-side per-property listener extraction: the key must be
an identifier or a non-empty string literal and the value a string literal
(possibly empty); everything else contributes nothing. -/
def listenerEntryOfProperty (p : Node × Node) : Option Listener :=
  match p.1, p.2 with
  | .Identifier e, .Literal (.str h) => some { event := e, handler := h }
  | .Literal (.str e), .Literal (.str h) =>
    if e = "" then none else some { event := e, handler := h }
  | _, _ => none

/-- The warning one `behaviors` array element contributes, if any. -/
def behaviorWarningOf (document : JavaScriptDocument) (element : Node) : Option Warning :=
  match getBehaviorAssignmentOrWarning element document with
  | .warning w => some w
  | .behaviorAssignment _ => none

/-- The behavior assignment one `behaviors` array element contributes, if any. -/
def behaviorAssignmentOf (document : JavaScriptDocument) (element : Node) :
    Option ScannedBehaviorAssignment :=
  match getBehaviorAssignmentOrWarning element document with
  | .warning _ => none
  | .behaviorAssignment a => some a

/-- A document supplying no ranges, no comments and no jsdoc tags. -/
def trivialDocument : JavaScriptDocument :=
  { sourceRangeForNode := fun _ => none,
    attachedComment := fun _ => none,
    jsdocNamespaceNameTag := fun _ => none }

/-- A freshly created declaration with every accumulated list empty. -/
def emptyDeclaration : ScannedPolymerElement :=
  { tagName := none, listeners := [], behaviorAssignments := [], warnings := [] }

/-- The single-declarator statement `var Foo = ...` (the initializer plays
no part in the scanner and is not represented). -/
def varFooStmt : Node :=
  Node.VariableDeclaration [Node.VariableDeclarator (Node.Identifier "Foo")]

/-- A statement declaring two variables in one declaration. -/
def twoDeclStmt : Node :=
  Node.VariableDeclaration
    [Node.VariableDeclarator (Node.Identifier "Foo"),
     Node.VariableDeclarator (Node.Identifier "Bar")]

/-- The source range of the full `var Foo` statement in the fixture file. -/
def fooRange : SourceRange :=
  { file := "namespaces.js", start := { line := 1, column := 0 },
    endPos := { line := 1, column := 14 } }

/-- A document attaching a namespace-marker comment (with no explicit name
tag) to every variable declaration, with a real range for the statement. -/
def fooDocument : JavaScriptDocument :=
  { sourceRangeForNode := fun n =>
      match n with
      | .VariableDeclaration _ => some fooRange
      | _ => none,
    attachedComment := fun n =>
      match n with
      | .VariableDeclaration _ => some "* @namespace "
      | _ => none,
    jsdocNamespaceNameTag := fun _ => none }

/-- A document marking every node as a namespace but unable to resolve any
source range. -/
def noRangeDocument : JavaScriptDocument :=
  { sourceRangeForNode := fun _ => none,
    attachedComment := fun _ => some "* @namespace ",
    jsdocNamespaceNameTag := fun _ => none }

/-- A concrete scanned mixin with no behavior references. -/
def sampleMixin : ScannedPolymerElementMixin :=
  { name := some "SampleMixin",
    properties := [{ name := "a", default? := some (JsVal.num 1) }],
    observers := [{ javascriptNode := Node.Identifier "obsA", expression := JsVal.str "obsA(a)" }],
    listeners := [{ event := "tap", handler := "onTap" }],
    behaviorAssignments := [],
    warnings := [],
    abstract := false }

/-- A source file whose external parse produced one error diagnostic. -/
def errorSourceFile : SourceFile :=
  { parseDiagnostics :=
      [{ category := DiagnosticCategory.Error, start := 0, length := 1,
         messageText := "Unexpected token" }],
    lineAndCharacterOfPosition := fun p => { line := 0, character := p } }

/-- A source file whose external parse produced no diagnostics. -/
def cleanSourceFile : SourceFile :=
  { parseDiagnostics := [],
    lineAndCharacterOfPosition := fun p => { line := 0, character := p } }

theorem isString_jsAnd_bool (c : Bool) (b : JsVal) (hb : b.isString = false) :
    (jsAnd (JsVal.bool c) b).isString = false := by
  simp only [jsAnd]
  split
  · exact hb
  · rfl

theorem handlerOf_literal (val : JsVal) : handlerOf (Node.Literal val) = val := by
  simp [handlerOf, jsOr, Node.type, Node.literalValue, JsVal.truthy]

theorem handlerOf_not_string (v : Node) (h : v.literalValue = JsVal.undefined) :
    (handlerOf v).isString = false := by
  unfold handlerOf
  rw [h]
  simp only [jsOr]
  split <;> rfl

theorem evtNameOf_identifier (n : String) : evtNameOf (Node.Identifier n) = JsVal.str n := by
  simp [evtNameOf, jsAnd, jsOr, Node.type, Node.literalValue, Node.identName, JsVal.truthy]

theorem evtNameOf_literal (val : JsVal) :
    evtNameOf (Node.Literal val) = if val.truthy then val else JsVal.bool false := by
  simp [evtNameOf, jsAnd, jsOr, Node.type, Node.literalValue, Node.identName, JsVal.truthy]

theorem evtNameOf_not_string (k : Node) (h1 : k.literalValue = JsVal.undefined)
    (h2 : k.identName = JsVal.undefined) : (evtNameOf k).isString = false := by
  unfold evtNameOf
  rw [h1, h2]
  simp only [jsOr]
  split
  · exact isString_jsAnd_bool _ _ rfl
  · exact isString_jsAnd_bool _ _ rfl

theorem listenerStep_eq (decl : ScannedPolymerElement) (p : Node × Node) :
    listenerStep decl p =
      (match entry? p with
       | some l => { decl with listeners := decl.listeners ++ [l] }
       | none => decl) := by
  obtain ⟨k, v⟩ := p
  show (if (evtNameOf k).isString && (handlerOf v).isString then _ else _) = _
  cases hk : evtNameOf k <;> cases hv : handlerOf v <;>
    simp [entry?, hk, hv, JsVal.isString, JsVal.asString]

theorem entry?_none_of_evt (k v : Node) (hk : (evtNameOf k).isString = false) :
    entry? (k, v) = none := by
  cases hkk : evtNameOf k <;> cases hvv : handlerOf v <;>
    simp_all [entry?, JsVal.isString]

theorem entry?_none_of_handler (k v : Node) (hv : (handlerOf v).isString = false) :
    entry? (k, v) = none := by
  cases hkk : evtNameOf k <;> cases hvv : handlerOf v <;>
    simp_all [entry?, JsVal.isString]

theorem entry?_none_of_key (k v : Node) (h1 : k.literalValue = JsVal.undefined)
    (h2 : k.identName = JsVal.undefined) : entry? (k, v) = none :=
  entry?_none_of_evt k v (evtNameOf_not_string k h1 h2)

theorem entry?_none_of_value (k v : Node) (h : v.literalValue = JsVal.undefined) :
    entry? (k, v) = none :=
  entry?_none_of_handler k v (handlerOf_not_string v h)

theorem entry?_eq_listenerEntryOfProperty (p : Node × Node) :
    entry? p = listenerEntryOfProperty p := by
  obtain ⟨k, v⟩ := p
  by_cases hstr : ∃ h, v = Node.Literal (JsVal.str h)
  case pos =>
    obtain ⟨h, rfl⟩ := hstr
    cases k
    case Identifier e =>
      simp [entry?, evtNameOf_identifier, handlerOf_literal, listenerEntryOfProperty]
    case Literal kval =>
      cases kval
      case str e =>
        by_cases he : e = ""
        · subst he
          simp [entry?, evtNameOf_literal, handlerOf_literal, JsVal.truthy,
            listenerEntryOfProperty]
        · simp [entry?, evtNameOf_literal, handlerOf_literal, JsVal.truthy, he,
            listenerEntryOfProperty]
      case num n =>
        by_cases hn : n = 0 <;>
          simp [entry?, evtNameOf_literal, handlerOf_literal, JsVal.truthy, hn,
            listenerEntryOfProperty]
      case bool b =>
        cases b <;>
          simp [entry?, evtNameOf_literal, handlerOf_literal, JsVal.truthy,
            listenerEntryOfProperty]
      case nul =>
        simp [entry?, evtNameOf_literal, handlerOf_literal, JsVal.truthy,
          listenerEntryOfProperty]
      case undefined =>
        simp [entry?, evtNameOf_literal, handlerOf_literal, JsVal.truthy,
          listenerEntryOfProperty]
    all_goals exact entry?_none_of_key _ _ rfl rfl
  case neg =>
    have hnone : entry? (k, v) = none := by
      cases v
      case Literal vval =>
        cases vval
        case str h => exact absurd ⟨h, rfl⟩ hstr
        all_goals
          exact entry?_none_of_handler _ _ (by rw [handlerOf_literal]; rfl)
      all_goals exact entry?_none_of_value _ _ rfl
    rw [hnone]
    cases v
    case Literal vval =>
      cases vval
      case str h => exact absurd ⟨h, rfl⟩ hstr
      all_goals
        cases k <;> first | rfl | (rename_i kval; cases kval <;> rfl)
    all_goals
      cases k <;> first | rfl | (rename_i kval; cases kval <;> rfl)

theorem filterMap_entry_eq (props : List (Node × Node)) :
    props.filterMap entry? = props.filterMap listenerEntryOfProperty := by
  induction props with
  | nil => rfl
  | cons p t ih =>
    rw [List.filterMap_cons, List.filterMap_cons, entry?_eq_listenerEntryOfProperty, ih]

theorem foldl_listenerStep_spec (props : List (Node × Node)) :
    ∀ decl : ScannedPolymerElement,
      (props.foldl listenerStep decl).listeners
          = decl.listeners ++ props.filterMap entry?
      ∧ (props.foldl listenerStep decl).warnings = decl.warnings
      ∧ (props.foldl listenerStep decl).behaviorAssignments = decl.behaviorAssignments
      ∧ (props.foldl listenerStep decl).tagName = decl.tagName := by
  induction props with
  | nil => intro decl; simp
  | cons p t ih =>
    intro decl
    rw [List.foldl_cons, List.filterMap_cons, listenerStep_eq]
    cases h : entry? p with
    | none => simpa using ih decl
    | some l =>
      obtain ⟨h1, h2, h3, h4⟩ := ih { decl with listeners := decl.listeners ++ [l] }
      exact ⟨by rw [h1]; simp, h2, h3, h4⟩

theorem foldl_behaviorStep_spec (document : JavaScriptDocument) (elements : List Node) :
    ∀ decl : ScannedPolymerElement,
      (elements.foldl (behaviorStep document) decl).warnings
          = decl.warnings ++ elements.filterMap (behaviorWarningOf document)
      ∧ (elements.foldl (behaviorStep document) decl).behaviorAssignments
          = decl.behaviorAssignments ++ elements.filterMap (behaviorAssignmentOf document)
      ∧ (elements.foldl (behaviorStep document) decl).listeners = decl.listeners
      ∧ (elements.foldl (behaviorStep document) decl).tagName = decl.tagName := by
  induction elements with
  | nil => intro decl; simp
  | cons e t ih =>
    intro decl
    rw [List.foldl_cons, List.filterMap_cons, List.filterMap_cons]
    cases h : getBehaviorAssignmentOrWarning e document with
    | warning w =>
      have hw : behaviorWarningOf document e = some w := by
        simp [behaviorWarningOf, h]
      have ha : behaviorAssignmentOf document e = none := by
        simp [behaviorAssignmentOf, h]
      have hstep : behaviorStep document decl e
          = { decl with warnings := decl.warnings ++ [w] } := by
        simp [behaviorStep, h]
      rw [hw, ha, hstep]
      obtain ⟨h1, h2, h3, h4⟩ := ih { decl with warnings := decl.warnings ++ [w] }
      exact ⟨by rw [h1]; simp, by rw [h2], h3, h4⟩
    | behaviorAssignment a =>
      have hw : behaviorWarningOf document e = none := by
        simp [behaviorWarningOf, h]
      have ha : behaviorAssignmentOf document e = some a := by
        simp [behaviorAssignmentOf, h]
      have hstep : behaviorStep document decl e
          = { decl with behaviorAssignments := decl.behaviorAssignments ++ [a] } := by
        simp [behaviorStep, h]
      rw [hw, ha, hstep]
      obtain ⟨h1, h2, h3, h4⟩ :=
        ih { decl with behaviorAssignments := decl.behaviorAssignments ++ [a] }
      exact ⟨by rw [h1], by rw [h2]; simp, h3, h4⟩

/-- C1 (counterexample): the claim that every object-literal property whose
key and value are both statically a string becomes a listener entry fails
on the code: the entry whose key is the empty string literal and whose
handler is the string literal `tap` has a statically-string key and value,
yet the extraction yields no listener entry for it (and no warning). -/
theorem listeners_static_string_counterexample :
    keyStaticallyString (Node.Literal (JsVal.str "")) = true
    ∧ valueStaticallyString (Node.Literal (JsVal.str "tap")) = true
    ∧ (listenersHandler emptyDeclaration trivialDocument
        (Node.ObjectExpression
          [(Node.Literal (JsVal.str ""), Node.Literal (JsVal.str "tap"))])).listeners = []
    ∧ (listenersHandler emptyDeclaration trivialDocument
        (Node.ObjectExpression
          [(Node.Literal (JsVal.str ""), Node.Literal (JsVal.str "tap"))])).warnings = [] := by
  refine ⟨rfl, rfl, ?_, ?_⟩ <;> decide

/-- C1 (amended): for a `listeners` object literal, the extraction produces
one `\x7bevent, handler\x7d` entry, in declaration order, for exactly each
property whose key is an identifier or a non-empty string literal and whose
value is a string literal; every other property is silently dropped and no
warning is added for it. -/
theorem listeners_object_literal_extraction (document : JavaScriptDocument)
    (props : List (Node × Node)) (decl : ScannedPolymerElement) :
    (listenersHandler decl document (Node.ObjectExpression props)).listeners
        = decl.listeners ++ props.filterMap listenerEntryOfProperty
    ∧ (listenersHandler decl document (Node.ObjectExpression props)).warnings
        = decl.warnings := by
  have h := foldl_listenerStep_spec props decl
  refine ⟨?_, ?_⟩
  · show (props.foldl listenerStep decl).listeners = _
    rw [h.1, filterMap_entry_eq]
  · exact h.2.1

/-- C10: a `listeners` entry whose key is the empty-string literal (falsy)
yields no listener entry whatever the handler node is, while an entry whose
handler is the empty-string literal is kept when the key is a non-empty
string literal: the truthiness test applies to the key's literal value, not
to the handler's. -/
theorem listeners_falsy_key_dropped_empty_handler_kept (document : JavaScriptDocument)
    (decl : ScannedPolymerElement) (handlerNode : Node) (s : String) (hs : s ≠ "") :
    (listenersHandler decl document (Node.ObjectExpression
        [(Node.Literal (JsVal.str ""), handlerNode)])).listeners = decl.listeners
    ∧ (listenersHandler decl document (Node.ObjectExpression
        [(Node.Literal (JsVal.str s), Node.Literal (JsVal.str ""))])).listeners
        = decl.listeners ++ [{ event := s, handler := "" }] := by
  constructor
  · have h := (foldl_listenerStep_spec [(Node.Literal (JsVal.str ""), handlerNode)] decl).1
    have hnone : entry? (Node.Literal (JsVal.str ""), handlerNode) = none :=
      entry?_none_of_evt _ _ (by simp [evtNameOf_literal, JsVal.truthy, JsVal.isString])
    show (List.foldl listenerStep decl _).listeners = _
    rw [h]
    simp [hnone]
  · have h := (foldl_listenerStep_spec
        [(Node.Literal (JsVal.str s), Node.Literal (JsVal.str ""))] decl).1
    have hsome : entry? (Node.Literal (JsVal.str s), Node.Literal (JsVal.str ""))
        = some { event := s, handler := "" } := by
      rw [entry?_eq_listenerEntryOfProperty]
      simp [listenerEntryOfProperty, hs]
    show (List.foldl listenerStep decl _).listeners = _
    rw [h]
    simp [hsome]

/-- Witness for C10 at the concrete key `click`. -/
theorem listeners_falsy_key_witness :
    ("click" : String) ≠ ""
    ∧ (listenersHandler emptyDeclaration trivialDocument (Node.ObjectExpression
        [(Node.Literal (JsVal.str ""), Node.Literal (JsVal.str "go"))])).listeners = []
    ∧ (listenersHandler emptyDeclaration trivialDocument (Node.ObjectExpression
        [(Node.Literal (JsVal.str "click"), Node.Literal (JsVal.str ""))])).listeners
        = [{ event := "click", handler := "" }] := by
  have h := listeners_falsy_key_dropped_empty_handler_kept trivialDocument emptyDeclaration
    (Node.Literal (JsVal.str "go")) "click" (by decide)
  exact ⟨by decide, h.1, h.2⟩

/-- C2: every element of a `behaviors` array literal produces exactly one of
two outcomes — a behavior assignment whose name is the element's dotted
identifier name, or a warning with code `could-not-determine-behavior-name`
appended to the declaration's warnings — and the extraction is a total
function, never a hard failure. -/
theorem behaviors_assignment_or_warning (document : JavaScriptDocument)
    (elements : List Node) (decl : ScannedPolymerElement) :
    (∀ element : Node,
      (∃ w, getBehaviorAssignmentOrWarning element document
            = BehaviorAssignmentOrWarning.warning w
          ∧ w.code = "could-not-determine-behavior-name")
      ∨ (∃ a, getBehaviorAssignmentOrWarning element document
            = BehaviorAssignmentOrWarning.behaviorAssignment a
          ∧ getIdentifierName element = some a.name))
    ∧ (behaviorsHandler decl document (Node.ArrayExpression elements)).warnings
        = decl.warnings ++ elements.filterMap (behaviorWarningOf document)
    ∧ (behaviorsHandler decl document (Node.ArrayExpression elements)).behaviorAssignments
        = decl.behaviorAssignments ++ elements.filterMap (behaviorAssignmentOf document) := by
  refine ⟨?_, ?_, ?_⟩
  · intro element
    by_cases hf : strFalsy (getIdentifierName element) = true
    · refine Or.inl ⟨{ code := "could-not-determine-behavior-name",
                       message := "Could not determine behavior name from expression of type "
                         ++ element.type,
                       severity := .WARNING,
                       sourceRange := bangRange (document.sourceRangeForNode element) },
                     ?_, rfl⟩
      simp [getBehaviorAssignmentOrWarning, hf]
    · refine Or.inr ⟨{ name := (getIdentifierName element).getD "",
                       sourceRange := bangRange (document.sourceRangeForNode element) },
                     ?_, ?_⟩
      · simp [getBehaviorAssignmentOrWarning, hf]
      · cases ho : getIdentifierName element with
        | none => rw [ho] at hf; exact absurd rfl hf
        | some s => simp [ho]
  · exact (foldl_behaviorStep_spec document elements decl).1
  · exact (foldl_behaviorStep_spec document elements decl).2.1

/-- C6: a variable-declaration statement containing two or more declarators
yields zero namespaces, whatever comments the document attaches to it. -/
theorem namespace_multi_declarator_skipped (document : JavaScriptDocument)
    (declarations : List Node) (h : 2 ≤ declarations.length) :
    NamespaceVisitor.enterVariableDeclaration document
      (Node.VariableDeclaration declarations) = .ok [] := by
  have hne : (declarations.length != 1) = true := by
    simp only [bne_iff_ne, ne_eq]
    omega
  simp [NamespaceVisitor.enterVariableDeclaration, hne]

/-- Witness for C6: two declarators, each carrying a namespace marker
through the document's attached comments, yield zero namespaces. -/
theorem namespace_multi_declarator_skipped_witness :
    NamespaceVisitor.enterVariableDeclaration noRangeDocument twoDeclStmt = .ok [] :=
  namespace_multi_declarator_skipped noRangeDocument _ (by decide)

/-- C7: the single-declarator statement `var Foo = ...` preceded by a
comment containing a namespace marker and no explicit name tag yields
exactly one namespace, named `Foo` after the declared identifier, whose
source range is the document's range for the full statement. -/
theorem namespace_single_declarator_yields_foo (document : JavaScriptDocument)
    (c : String) (r : SourceRange)
    (hcomment : document.attachedComment varFooStmt = some c)
    (hmarker : strContains c "@namespace" = true)
    (hnotag : document.jsdocNamespaceNameTag c = none)
    (hrange : document.sourceRangeForNode varFooStmt = some r) :
    NamespaceVisitor.enterVariableDeclaration document varFooStmt
      = .ok [{ name := "Foo", astNode := varFooStmt, jsdocComment := c, sourceRange := r }] := by
  have h1 : NamespaceVisitor.initNamespace document varFooStmt (some "Foo")
      = .ok (some { name := "Foo", astNode := varFooStmt, jsdocComment := c,
                    sourceRange := r }) := by
    unfold NamespaceVisitor.initNamespace
    rw [hcomment]
    simp [hmarker, hnotag, hrange, jsStrOr, strFalsy]
  have h0 : NamespaceVisitor.enterVariableDeclaration document varFooStmt
      = (match NamespaceVisitor.initNamespace document varFooStmt (some "Foo") with
         | .ok none => .ok []
         | .ok (some ns) => .ok [ns]
         | .error e => .error e) := rfl
  rw [h0, h1]

/-- Witness for C7 at a concrete marked document. -/
theorem namespace_single_declarator_yields_foo_witness :
    strContains "* @namespace " "@namespace" = true
    ∧ NamespaceVisitor.enterVariableDeclaration fooDocument varFooStmt
        = .ok [{ name := "Foo", astNode := varFooStmt, jsdocComment := "* @namespace ",
                 sourceRange := fooRange }] :=
  ⟨by decide,
   namespace_single_declarator_yields_foo fooDocument "* @namespace " fooRange rfl
     (by decide) rfl rfl⟩

/-- C8: a node recognized as a namespace (marker comment attached, truthy
name determined) for which the document's range lookup returns no source
range makes the scanner throw a hard error, not skip or warn. -/
theorem namespace_missing_range_throws (document : JavaScriptDocument) (node : Node)
    (getName : Option String) (c : String) (name : String)
    (hcomment : document.attachedComment node = some c)
    (hmarker : strContains c "@namespace" = true)
    (hname : jsStrOr (document.jsdocNamespaceNameTag c) getName = some name)
    (hne : name ≠ "")
    (hnorange : document.sourceRangeForNode node = none) :
    NamespaceVisitor.initNamespace document node getName
      = .error ("Unable to determine sourceRange for @namespace: " ++ c) := by
  simp [NamespaceVisitor.initNamespace, hcomment, hmarker, hname, hnorange, strFalsy, hne]

/-- Witness for C8 at a concrete document with no resolvable ranges. -/
theorem namespace_missing_range_throws_witness :
    NamespaceVisitor.initNamespace noRangeDocument varFooStmt (some "Foo")
      = .error ("Unable to determine sourceRange for @namespace: " ++ "* @namespace ") :=
  namespace_missing_range_throws noRangeDocument varFooStmt (some "Foo") "* @namespace "
    "Foo" rfl (by decide) rfl (by decide) rfl

/-- C9: resolving a scanned behavior/mixin with zero behavior references
yields a resolved feature whose properties, observers and listeners equal
the declared lists, unchanged. -/
theorem mixin_resolve_copies_lists (m : ScannedPolymerElementMixin)
    (document : JavaScriptDocument) (_h : m.behaviorAssignments = []) :
    (m.resolve document).properties = m.properties
    ∧ (m.resolve document).observers = m.observers
    ∧ (m.resolve document).listeners = m.listeners :=
  ⟨rfl, rfl, rfl⟩

/-- Witness for C9 at a concrete mixin with no behavior references. -/
theorem mixin_resolve_copies_lists_witness :
    sampleMixin.behaviorAssignments = []
    ∧ (sampleMixin.resolve trivialDocument).properties = sampleMixin.properties
    ∧ (sampleMixin.resolve trivialDocument).observers = sampleMixin.observers
    ∧ (sampleMixin.resolve trivialDocument).listeners = sampleMixin.listeners := by
  have h := mixin_resolve_copies_lists sampleMixin trivialDocument rfl
  exact ⟨rfl, h.1, h.2.1, h.2.2⟩

/-- C5: `correctSourceRange` returns the range unchanged when no offset is
given, propagates an undefined range, and with an offset `(L, C)` maps a
position on line 0 to line L with C added to its column, and a position on
a line n > 0 to line L + n with the column unchanged. -/
theorem correctSourceRange_spec (r : SourceRange) (L C : Nat) :
    correctSourceRange (some r) none = some r
    ∧ correctSourceRange none (some { line := L, column := C }) = none
    ∧ correctSourceRange none none = none
    ∧ (∀ o : LocationOffset, correctSourceRange (some r) (some o)
        = some { file := r.file, start := correctPosition r.start o,
                 endPos := correctPosition r.endPos o })
    ∧ (∀ k, correctPosition { line := 0, column := k } { line := L, column := C }
        = { line := L, column := k + C })
    ∧ (∀ n k, 0 < n →
        correctPosition { line := n, column := k } { line := L, column := C }
          = { line := L + n, column := k }) := by
  refine ⟨rfl, rfl, rfl, fun o => rfl, fun k => ?_, fun n k hn => ?_⟩
  · simp [correctPosition]
  · have hn0 : (n == 0) = false := by
      simp only [beq_eq_false_iff_ne, ne_eq]
      omega
    simp [correctPosition, hn0]
    omega

/-- Witness for C5 at concrete positions and the offset (3, 7). -/
theorem correctSourceRange_spec_witness :
    correctPosition { line := 0, column := 4 } { line := 3, column := 7 }
      = { line := 3, column := 11 }
    ∧ (0 < 2
    ∧ correctPosition { line := 2, column := 4 } { line := 3, column := 7 }
        = { line := 5, column := 4 }) := by
  obtain ⟨-, -, -, -, h5, h6⟩ := correctSourceRange_spec fooRange 3 7
  exact ⟨h5 4, by decide, h6 2 4 (by decide)⟩

/-- C4: when the external parse yields a first diagnostic of error category,
`TypeScriptPreparser.parse` throws a range-carrying exception with code
`parse-error` and severity ERROR built from that diagnostic; with no
error-category diagnostic it returns a parsed document; and an
error-category diagnostic exists iff the first-error search succeeds. -/
theorem typescript_preparser_parse_spec (createSourceFile : String → String → SourceFile)
    (contents url : String) (inlineInfo? : Option InlineDocInfo) :
    (∀ d0, (createSourceFile url contents).parseDiagnostics.find?
        (fun d => d.category == DiagnosticCategory.Error) = some d0 →
      TypeScriptPreparser.parse createSourceFile contents url inlineInfo? =
        .error { warning :=
          { code := "parse-error",
            severity := .ERROR,
            message := flattenDiagnosticMessageText d0.messageText "\n",
            sourceRange := bangRange (correctSourceRange
              (some { file := url,
                      start := { line := ((createSourceFile url contents).lineAndCharacterOfPosition d0.start).line,
                                 column := ((createSourceFile url contents).lineAndCharacterOfPosition d0.start).character },
                      endPos := { line := ((createSourceFile url contents).lineAndCharacterOfPosition (d0.start + d0.length)).line,
                                  column := ((createSourceFile url contents).lineAndCharacterOfPosition (d0.start + d0.length)).character } })
              ((inlineInfo?.getD { locationOffset := none }).locationOffset)) } })
    ∧ ((createSourceFile url contents).parseDiagnostics.find?
        (fun d => d.category == DiagnosticCategory.Error) = none →
      ∃ doc, TypeScriptPreparser.parse createSourceFile contents url inlineInfo? = .ok doc)
    ∧ ((∃ d ∈ (createSourceFile url contents).parseDiagnostics,
          d.category = DiagnosticCategory.Error)
        ↔ ((createSourceFile url contents).parseDiagnostics.find?
            (fun d => d.category == DiagnosticCategory.Error)).isSome) := by
  refine ⟨?_, ?_, ?_⟩
  · intro d0 h
    simp only [TypeScriptPreparser.parse, h]
  · intro h
    exact ⟨{ url := url, contents := contents, ast := createSourceFile url contents,
             locationOffset := (inlineInfo?.getD { locationOffset := none }).locationOffset,
             isInline := inlineInfo?.isSome },
           by simp only [TypeScriptPreparser.parse, h]⟩
  · rw [List.find?_isSome]
    constructor
    · rintro ⟨d, hd, hc⟩
      exact ⟨d, hd, by simp [hc]⟩
    · rintro ⟨d, hd, hc⟩
      exact ⟨d, hd, by simpa using hc⟩

/-- Witness for C4: a parse with one error diagnostic throws the
`parse-error` exception; a clean parse returns a document. -/
theorem typescript_preparser_parse_spec_witness :
    (TypeScriptPreparser.parse (fun _ _ => errorSourceFile) "x y" "a.ts" none =
      .error { warning :=
        { code := "parse-error", severity := .ERROR, message := "Unexpected token",
          sourceRange := { file := "a.ts", start := { line := 0, column := 0 },
                           endPos := { line := 0, column := 1 } } } })
    ∧ ∃ doc, TypeScriptPreparser.parse (fun _ _ => cleanSourceFile) "let x = 1" "b.ts" none
        = .ok doc := by
  constructor
  · exact (typescript_preparser_parse_spec (fun _ _ => errorSourceFile) "x y" "a.ts" none).1
      { category := DiagnosticCategory.Error, start := 0, length := 1,
        messageText := "Unexpected token" } rfl
  · exact (typescript_preparser_parse_spec (fun _ _ => cleanSourceFile) "let x = 1" "b.ts"
      none).2.1 rfl

/-- C3: `validateElements` succeeds on schema_version 1.0.0, succeeds on
1.0.1 even with an unknown extra field, fails with an invalid-schema_version
message on 5.1.1, and fails on a package missing schema_version with a
message citing the required property and a non-empty errors list. -/
theorem validateElements_spec :
    validateElements { schema_version := some "1.0.0", elements := some [], extraFields := [] } = .ok ()
    ∧ validateElements { schema_version := some "1.0.1", elements := some [], extraFields := [("new_field", "stuff here")] } = .ok ()
    ∧ (∃ e, validateElements { schema_version := some "5.1.1", elements := some [], extraFields := [("new_field", "stuff here")] } = .error e
        ∧ strContains e.message "Invalid schema_version" = true)
    ∧ (∃ e, validateElements { schema_version := none, elements := none, extraFields := [] } = .error e
        ∧ strContains e.message "requires property \"schema_version\"" = true
        ∧ e.errors ≠ []) := by
  refine ⟨rfl, rfl, ⟨_, rfl, by decide⟩, ⟨_, rfl, by decide, by decide⟩⟩

end PolymerAnalyzer
